import Mathlib

/-!
# A verification development for the dashboard grid/state core

Shallow embedding of the widget-dashboard core: the `StateManager`
(`dashboard/js/state.js`) and the `GridManager` grid/interaction engine
(`grid.js`).  Widget geometry is modelled over `Int` (JS numbers at integer
grid coordinates); JS objects become structures, JS `undefined`-able fields
become `Option`, and JS truthiness tests on numbers/strings are modelled
explicitly (`jsFalsyInt`, `jsFalsyStr`).  Pointer pixels are out of scope:
gesture functions are embedded from the point where the engine has already
converted pixel deltas into whole grid-cell values, which is where all
committed geometry is decided.
-/

namespace Dashboard

/-- Widget `config` objects are opaque to the core; modelled as association
lists of string key/value pairs. -/
abbrev Config := List (String × String)

/-- The `GridSettings` of the application state (`state.js` default: 12/60/8). -/
structure GridSettings where
  cols : Int
  rowHeight : Int
  gap : Int
deriving DecidableEq

/-- One committed widget record, as stored in `state.widgets`.
`config` is `Option` because `addWidget` copies it verbatim from the caller's
partial object, which may omit it. -/
structure Widget where
  id : String
  type : String
  x : Int
  y : Int
  w : Int
  h : Int
  minimized : Bool
  config : Option Config
deriving DecidableEq

/-- The canonical `ApplicationState` owned by the `StateManager`. -/
structure AppState where
  grid : GridSettings
  widgets : List Widget
  theme : String
  settings : List (String × Bool)
  version : String
deriving DecidableEq

/-- The caller-supplied partial widget object accepted by
`StateManager.addWidget` (and the element shape of an imported `widgets`
array).  Absent JS properties are `none`. -/
structure WidgetPartial where
  id : Option String
  type : String
  x : Option Int
  y : Option Int
  w : Option Int
  h : Option Int
  minimized : Option Bool
  config : Option Config
deriving DecidableEq

/-- JS truthiness test `!v` for a possibly-absent number: true when the
property is absent or its value is `0`. -/
def jsFalsyInt (o : Option Int) : Bool :=
  match o with
  | none => true
  | some v => v == 0

/-- JS `v || d` for a possibly-absent number: the value unless it is absent
or `0`, in which case the default. -/
def jsOrInt (o : Option Int) (d : Int) : Int :=
  match o with
  | none => d
  | some v => if v = 0 then d else v

/-- JS truthiness test for a possibly-absent string: true when the property
is absent or the empty string. -/
def jsFalsyStr (o : Option String) : Bool :=
  match o with
  | none => true
  | some v => v == ""

/-!
## Geometry: `GridManager.rectsIntersect`, cell occupancy, `validatePosition`,
`validateResize`, resize-handle transforms
-/

/-- Embeds `GridManager.rectsIntersect`: axis-aligned rectangle overlap test
(`!(x1 + w1 <= x2 || x2 + w2 <= x1 || y1 + h1 <= y2 || y2 + h2 <= y1)`). -/
def rectsIntersect (x1 y1 w1 h1 x2 y2 w2 h2 : Int) : Bool :=
  !(decide (x1 + w1 ≤ x2) || decide (x2 + w2 ≤ x1) ||
    decide (y1 + h1 ≤ y2) || decide (y2 + h2 ≤ y1))

/-- Whether widget `wd` covers grid cell `(cx, cy)`: the cells the
`findEmptyPosition` occupancy map marks for `wd`
(`for x = wd.x; x < wd.x + wd.w` × `for y = wd.y; y < wd.y + wd.h`). -/
def coversCell (wd : Widget) (cx cy : Int) : Bool :=
  decide (wd.x ≤ cx) && decide (cx < wd.x + wd.w) &&
  decide (wd.y ≤ cy) && decide (cy < wd.y + wd.h)

/-- The `gridMap.has` test of `StateManager.findEmptyPosition`: cell `(cx, cy)` is
occupied when some widget covers it. -/
def cellOccupied (ws : List Widget) (cx cy : Int) : Bool :=
  ws.any (fun wd => coversCell wd cx cy)

/-- The `canPlace` check of `findEmptyPosition`: the `width × height`
rectangle at `(x, y)` contains no occupied cell
(`for dx = 0; dx < width` × `for dy = 0; dy < height`). -/
def rectFree (ws : List Widget) (width height : Int) (x y : Int) : Bool :=
  (List.range width.toNat).all fun dx =>
    (List.range height.toNat).all fun dy =>
      !cellOccupied ws (x + (dx : Int)) (y + (dy : Int))

/-- The inner column loop of `findEmptyPosition`
(`for x = 0; x <= cols - width; x++ … if canPlace return {x, y}`):
first `x`, starting at `x0` and trying `n` consecutive values, where `g`
holds. -/
def scanColsFrom (g : Int → Bool) : Int → Nat → Option Int
  | _, 0 => none
  | x, n + 1 => if g x then some x else scanColsFrom g (x + 1) n

/-- The outer row loop of `findEmptyPosition`
(`for y = 0; y < 100; y++`): first row, starting at `y0` and trying `n`
consecutive rows, where the per-row search yields a column. -/
def scanRowsFrom (f : Int → Option Int) : Int → Nat → Option (Int × Int)
  | _, 0 => none
  | y, n + 1 =>
    match f y with
    | some x => some (x, y)
    | none => scanRowsFrom f (y + 1) n

/-- Embeds `Math.max(...widgets.map(w => w.y + w.h), 0)`: the fallback row of
`findEmptyPosition`. -/
def maxBottom (ws : List Widget) : Int :=
  ws.foldr (fun wd acc => max (wd.y + wd.h) acc) 0

/-- Embeds `StateManager.findEmptyPosition(width, height)`: row-major scan of rows
`0..99` and columns `0..cols - width` for the first free `width × height`
rectangle; falls back to `(0, maxBottom)` when the scan finds none. -/
def findEmptyPosition (ws : List Widget) (cols width height : Int) : Int × Int :=
  match scanRowsFrom
      (fun y => scanColsFrom (fun x => rectFree ws width height x y) 0
        (cols - width + 1).toNat) 0 100 with
  | some p => p
  | none => (0, maxBottom ws)

/-- The `while (attempts < 100)` push-down loop of
`GridManager.validatePosition`: with `n` attempts left, if the candidate
`(x, y, w, h)` intersects some widget of `others`, move to `y + 1`; when the
attempt budget is exhausted the current candidate is returned as is. -/
def vpLoop (others : List Widget) (w h : Int) (x : Int) : Int → Nat → Int × Int
  | y, 0 => (x, y)
  | y, n + 1 =>
    if others.any (fun wd => rectsIntersect x y w h wd.x wd.y wd.w wd.h) then
      vpLoop others w h x (y + 1) n
    else
      (x, y)

/-- Embeds `GridManager.validatePosition(x, y, w, h, excludeId)`: clamp `x` into
`[0, cols - w]` and `y` into `[0, ∞)`, then push the candidate down past
collisions with the non-excluded widgets, for at most 100 attempts. -/
def validatePosition (ws : List Widget) (cols : Int) (x y w h : Int)
    (excludeId : String) : Int × Int :=
  let cx := max 0 (min x (cols - w))
  let cy := max 0 y
  let others := ws.filter (fun wd => wd.id != excludeId)
  vpLoop others w h cx cy 100

/-- Embeds `GridManager.validateResize(x, y, w, h, excludeId)`: floor `w`, `h` at 1,
then clamp `x` into `[0, cols - w]` and `y` into `[0, ∞)` (no collision
check). -/
def validateResize (cols : Int) (x y w h : Int) : Int × Int × Int × Int :=
  let w2 := max 1 w
  let h2 := max 1 h
  let x2 := max 0 (min x (cols - w2))
  let y2 := max 0 y
  (x2, y2, w2, h2)

/-- The eight resize-handle hotspots of the grid engine. -/
inductive Handle
  | hN | hS | hE | hW | hNE | hNW | hSE | hSW
deriving DecidableEq

/-- A candidate geometry `{x, y, w, h}` during a resize gesture. -/
structure RectCand where
  x : Int
  y : Int
  w : Int
  h : Int
deriving DecidableEq

/-- The handle-specific `switch` of `GridManager.updateResize`, applied to
whole grid-cell deltas `(dgx, dgy)` (the engine first rounds pixel deltas to
grid cells; that conversion is upstream of this transform). -/
def applyResizeHandle (hd : Handle) (dgx dgy : Int) (r : RectCand) : RectCand :=
  match hd with
  | .hE => { r with w := max 1 (r.w + dgx) }
  | .hW => { r with w := max 1 (r.w - dgx), x := max 0 (r.x + dgx) }
  | .hS => { r with h := max 1 (r.h + dgy) }
  | .hN => { r with h := max 1 (r.h - dgy), y := max 0 (r.y + dgy) }
  | .hSE => { r with w := max 1 (r.w + dgx), h := max 1 (r.h + dgy) }
  | .hSW => { r with w := max 1 (r.w - dgx), h := max 1 (r.h + dgy),
                     x := max 0 (r.x + dgx) }
  | .hNE => { r with w := max 1 (r.w + dgx), h := max 1 (r.h - dgy),
                     y := max 0 (r.y + dgy) }
  | .hNW => { r with w := max 1 (r.w - dgx), h := max 1 (r.h - dgy),
                     x := max 0 (r.x + dgx), y := max 0 (r.y + dgy) }

/-!
## StateManager: id generation, widget mutations, import/export
-/

/-- Decimal digit list of `n`, least significant first, with explicit fuel
(`fuel ≥ n + 1` always suffices, see `natDigitsRevAux_fuel`).  This is the
digit sequence a JS template literal prints for a non-negative integer. -/
def natDigitsRevAux : Nat → Nat → List Char
  | 0, _ => []
  | fuel + 1, n =>
    if n < 10 then [Nat.digitChar n]
    else Nat.digitChar (n % 10) :: natDigitsRevAux fuel (n / 10)

/-- The decimal string a JS template literal `${n}` produces for a
non-negative integer `n`. -/
def natToString (n : Nat) : String :=
  (natDigitsRevAux (n + 1) n).reverse.asString

/-- The id string `` `${type}-${counter}` `` built by
`StateManager.generateWidgetId`. -/
def mkWidgetId (ty : String) (counter : Nat) : String :=
  ty ++ "-" ++ natToString counter

/-- The `while (existingIds.includes(id)) counter++` loop of
`generateWidgetId`, with explicit fuel.  Fuel `ids.length + 1` is always
enough for the loop to find an unused id (see `genIdAux_fuel_sufficient`),
so the fuel-exhausted base case is unreachable at the call site below. -/
def genIdAux (ids : List String) (ty : String) : Nat → Nat → String
  | counter, 0 => mkWidgetId ty counter
  | counter, fuel + 1 =>
    if mkWidgetId ty counter ∈ ids then genIdAux ids ty (counter + 1) fuel
    else mkWidgetId ty counter

/-- Embeds `StateManager.generateWidgetId(type)`: smallest `counter ≥ 1` such that
`` `${type}-${counter}` `` is not among the existing widget ids. -/
def generateWidgetId (ws : List Widget) (ty : String) : String :=
  genIdAux (ws.map (fun wd => wd.id)) ty 1 (ws.length + 1)

/-- Embeds `StateManager.addWidget(widgetData)`.  The appended record is the JS
object literal `{ id: generated, ...widgetData, x: x||0, y: y||0, w: w||3,
h: h||2, minimized: false }` (so a caller-supplied `id` overrides the
generated one, and `minimized` is always `false`); when both `x` and `y` are
falsy, `findEmptyPosition` picks the position.  Returns the new state and
the appended record. -/
def addWidget (s : AppState) (p : WidgetPartial) : AppState × Widget :=
  let w0 : Widget :=
    { id := match p.id with
            | some i => i
            | none => generateWidgetId s.widgets p.type
      type := p.type
      x := jsOrInt p.x 0
      y := jsOrInt p.y 0
      w := jsOrInt p.w 3
      h := jsOrInt p.h 2
      minimized := false
      config := p.config }
  let wFinal :=
    if jsFalsyInt p.x && jsFalsyInt p.y then
      let pos := findEmptyPosition s.widgets s.grid.cols w0.w w0.h
      { w0 with x := pos.1, y := pos.2 }
    else w0
  ({ s with widgets := s.widgets ++ [wFinal] }, wFinal)

/-- The update object of `StateManager.updateWidget`: the JS spread
`{ ...oldWidget, ...updates }` merges only the properties present. -/
structure WidgetUpdates where
  x : Option Int
  y : Option Int
  w : Option Int
  h : Option Int
  minimized : Option Bool
  config : Option Config
deriving DecidableEq

/-- An update object carrying nothing. -/
def WidgetUpdates.empty : WidgetUpdates :=
  { x := none, y := none, w := none, h := none, minimized := none,
    config := none }

/-- The JS spread merge `{ ...oldWidget, ...updates }`. -/
def applyUpdates (upd : WidgetUpdates) (wd : Widget) : Widget :=
  { wd with
    x := upd.x.getD wd.x
    y := upd.y.getD wd.y
    w := upd.w.getD wd.w
    h := upd.h.getD wd.h
    minimized := upd.minimized.getD wd.minimized
    config := match upd.config with
              | some c => some c
              | none => wd.config }

/-- The `findIndex` + in-place replacement of `StateManager.updateWidget`:
rewrite the first widget satisfying `p` with `f`; the boolean reports
whether one was found. -/
def updateFirst (p : Widget → Bool) (f : Widget → Widget) :
    List Widget → List Widget × Bool
  | [] => ([], false)
  | wd :: rest =>
    if p wd then (f wd :: rest, true)
    else
      let r := updateFirst p f rest
      (wd :: r.1, r.2)

/-- Embeds `StateManager.updateWidget(widgetId, updates)`: merge `updates` into the
record matching `widgetId`; `false` and no mutation when there is none. -/
def updateWidget (s : AppState) (widgetId : String) (upd : WidgetUpdates) :
    AppState × Bool :=
  let r := updateFirst (fun wd => wd.id == widgetId) (applyUpdates upd) s.widgets
  ({ s with widgets := r.1 }, r.2)

/-- Embeds `StateManager.moveWidget(widgetId, {x, y})`: thin wrapper over
`updateWidget`. -/
def moveWidget (s : AppState) (widgetId : String) (nx ny : Int) :
    AppState × Bool :=
  updateWidget s widgetId
    { WidgetUpdates.empty with x := some nx, y := some ny }

/-- Embeds `StateManager.duplicateWidget(widgetId)`: clone with a fresh id at
`x + w`, falling back to the empty-position search when the clone would
exceed the grid width. -/
def duplicateWidget (s : AppState) (widgetId : String) :
    AppState × Option Widget :=
  match s.widgets.find? (fun wd => wd.id == widgetId) with
  | none => (s, none)
  | some wd =>
    let dup0 := { wd with id := generateWidgetId s.widgets wd.type,
                          x := wd.x + wd.w }
    let dup :=
      if dup0.x + dup0.w > s.grid.cols then
        let pos := findEmptyPosition s.widgets s.grid.cols dup0.w dup0.h
        { dup0 with x := pos.1, y := pos.2 }
      else dup0
    ({ s with widgets := s.widgets ++ [dup] }, some dup)

/-- The `widgets` property of an `importLayout` payload: absent/falsy,
present but not an array, or an array of widget objects. -/
inductive WidgetsField
  | absent
  | notArray
  | arr (l : List WidgetPartial)
deriving DecidableEq

/-- An `importLayout` payload `{grid?, widgets, theme?, settings?,
version?}`; top-level properties absent from the JSON are `none`
(the time-stamp field `exportedAt` carries no state and is omitted). -/
structure ImportData where
  grid : Option GridSettings
  widgets : WidgetsField
  theme : Option String
  settings : Option (List (String × Bool))
  version : Option String
deriving DecidableEq

/-- The events `importLayout` can emit. -/
inductive StateEvent
  | importError
  | layoutImported (backup : AppState)
deriving DecidableEq

/-- The id backfill of `importLayout`:
`{ ...widget, id: widget.id || generateWidgetId(widget.type) }`, where the
generator consults the widget list of the state *before* the assignment. -/
def backfillWidget (oldWidgets : List Widget) (p : WidgetPartial) : Widget :=
  { id := match p.id with
          | some i => if i = "" then generateWidgetId oldWidgets p.type else i
          | none => generateWidgetId oldWidgets p.type
    type := p.type
    x := p.x.getD 0
    y := p.y.getD 0
    w := p.w.getD 0
    h := p.h.getD 0
    minimized := (p.minimized.getD false)
    config := p.config }

/-- Embeds `StateManager.importLayout(layoutData)`: reject (emit `import-error`,
return `false`, leave the state alone) unless `widgets` is an array;
otherwise spread the payload over the current state
(`{...this.state, ...layoutData, widgets: mapped}`), backfill missing
widget ids against the prior widget list, and emit `layout-imported`
with a backup of the prior state. -/
def importLayout (s : AppState) (d : ImportData) :
    Bool × AppState × List StateEvent :=
  match d.widgets with
  | .arr l =>
    let s2 : AppState :=
      { grid := d.grid.getD s.grid
        widgets := l.map (backfillWidget s.widgets)
        theme := d.theme.getD s.theme
        settings := d.settings.getD s.settings
        version := d.version.getD s.version }
    (true, s2, [StateEvent.layoutImported s])
  | _ => (false, s, [StateEvent.importError])

/-- The widget objects `exportLayout` serialises (the records verbatim). -/
def widgetToPartial (wd : Widget) : WidgetPartial :=
  { id := some wd.id, type := wd.type, x := some wd.x, y := some wd.y,
    w := some wd.w, h := some wd.h, minimized := some wd.minimized,
    config := wd.config }

/-- Embeds `StateManager.exportLayout()`: the serialisable snapshot
`{grid, widgets, theme, settings, version, exportedAt}` (the `exportedAt`
wall-clock stamp carries no state and is omitted from the model). -/
def exportLayout (s : AppState) : ImportData :=
  { grid := some s.grid
    widgets := .arr (s.widgets.map widgetToPartial)
    theme := some s.theme
    settings := some s.settings
    version := some s.version }

/-!
## Grid engine commits: drag and resize
-/

/-- Embeds `GridManager.endDrag`: validate the final grid cell the pointer is over
(`(gx, gy)`, the `screenToGrid` output) against the other widgets, then
commit through `moveWidget` only when the validated position differs from
the position at gesture start.  `startDrag` requires the dragged record to
exist; a missing id commits nothing. -/
def dragCommit (s : AppState) (widgetId : String) (gx gy : Int) : AppState :=
  match s.widgets.find? (fun wd => wd.id == widgetId) with
  | none => s
  | some wd =>
    let fp := validatePosition s.widgets s.grid.cols gx gy wd.w wd.h widgetId
    if fp.1 ≠ wd.x ∨ fp.2 ≠ wd.y then (moveWidget s widgetId fp.1 fp.2).1
    else s

/-- Embeds `GridManager.endResize` for a gesture with whole grid-cell deltas
`(dgx, dgy)`: the handle transform of `updateResize` followed by
`validateResize` yields the last previewed candidate, which is what the
commit reads back and stores through `updateWidget` when it differs from
the original geometry.  (The source reads the committed geometry from the
rendered layout the preview just set — see the spec's §9 note; the preview
is exactly this validated candidate.) -/
def resizeCommit (s : AppState) (widgetId : String) (hd : Handle)
    (dgx dgy : Int) : AppState :=
  match s.widgets.find? (fun wd => wd.id == widgetId) with
  | none => s
  | some wd =>
    let cand := applyResizeHandle hd dgx dgy ⟨wd.x, wd.y, wd.w, wd.h⟩
    let v := validateResize s.grid.cols cand.x cand.y cand.w cand.h
    if v.1 ≠ wd.x ∨ v.2.1 ≠ wd.y ∨ v.2.2.1 ≠ wd.w ∨ v.2.2.2 ≠ wd.h then
      (updateWidget s widgetId
        { WidgetUpdates.empty with
          x := some v.1, y := some v.2.1, w := some v.2.2.1,
          h := some v.2.2.2 }).1
    else s

/-!
## Operation sequences for the no-overlap invariant
-/

/-- The validated commit operations of the no-overlap claim: an
`addWidget` call and a pointer-drag commit. -/
inductive GridOp
  | add (p : WidgetPartial)
  | drag (widgetId : String) (gx gy : Int)
deriving DecidableEq

/-- Apply one operation to the state. -/
def applyOp (s : AppState) : GridOp → AppState
  | .add p => (addWidget s p).1
  | .drag widgetId gx gy => dragCommit s widgetId gx gy

/-- Run a sequence of operations. -/
def runOps (s : AppState) (ops : List GridOp) : AppState :=
  ops.foldl applyOp s

/-- No two records of the list overlap, under the engine's own
`rectsIntersect` test. -/
def pairwiseFree : List Widget → Bool
  | [] => true
  | wd :: rest =>
    rest.all (fun u => !rectsIntersect wd.x wd.y wd.w wd.h u.x u.y u.w u.h) &&
    pairwiseFree rest

/-- Every record has positive width and height (the data-model shape
`w ≥ 1, h ≥ 1`). -/
def dimsPositive (ws : List Widget) : Bool :=
  ws.all (fun wd => decide (1 ≤ wd.w) && decide (1 ≤ wd.h))

/-- An operation taken through the *validated* commit path at state `s`, on
data-model-conforming input:
* `add p`: the auto-placement path (`x` and `y` both falsy, so
  `findEmptyPosition` chooses the cell), with no caller-supplied `id` and
  positive effective dimensions;
* `drag`: the collision validator found a collision-free position within
  its attempt budget (its result intersects no other widget). -/
def opValidatedB (s : AppState) : GridOp → Bool
  | .add p =>
    p.id.isNone && jsFalsyInt p.x && jsFalsyInt p.y &&
    decide (1 ≤ jsOrInt p.w 3) && decide (1 ≤ jsOrInt p.h 2)
  | .drag widgetId gx gy =>
    s.widgets.all fun wd =>
      !(wd.id == widgetId) ||
      (s.widgets.filter (fun u => u.id != widgetId)).all fun u =>
        !rectsIntersect
          (validatePosition s.widgets s.grid.cols gx gy wd.w wd.h widgetId).1
          (validatePosition s.widgets s.grid.cols gx gy wd.w wd.h widgetId).2
          wd.w wd.h u.x u.y u.w u.h

/-- Every step of the run goes through a validated commit path. -/
def validatedRunB : AppState → List GridOp → Bool
  | _, [] => true
  | s, op :: rest => opValidatedB s op && validatedRunB (applyOp s op) rest

/-!
## Session operations that create widgets (for the unique-id claim)
-/

/-- The two widget-creating operations of a session. -/
inductive SessionOp
  | add (p : WidgetPartial)
  | dup (widgetId : String)
deriving DecidableEq

/-- Apply one widget-creating operation. -/
def applySessionOp (s : AppState) : SessionOp → AppState
  | .add p => (addWidget s p).1
  | .dup widgetId => (duplicateWidget s widgetId).1

/-- Run a session of widget-creating operations. -/
def runSession (s : AppState) (ops : List SessionOp) : AppState :=
  ops.foldl applySessionOp s

/-- No `add` of the session smuggles in a caller-chosen `id` (every caller
in the application passes `{type, config}` only, so `addWidget` itself
assigns the id). -/
def sessionNoCallerIds : List SessionOp → Bool
  | [] => true
  | .add p :: rest => p.id.isNone && sessionNoCallerIds rest
  | .dup _ :: rest => sessionNoCallerIds rest

/-!
## Concrete fixtures used by scenario conjuncts, counterexamples and
witnesses
-/

/-- The default grid settings (`cols: 12, rowHeight: 60, gap: 8`). -/
def grid0 : GridSettings := ⟨12, 60, 8⟩

/-- A state with the default grid and no widgets. -/
def emptyState : AppState := ⟨grid0, [], "system", [], "1.0.0"⟩

/-- A widget literal builder for fixtures. -/
def mkW (i ty : String) (x y w h : Int) : Widget :=
  ⟨i, ty, x, y, w, h, false, none⟩

/-- A partial asking for auto-placement of a `w × h` widget. -/
def autoPartial (ty : String) (w h : Int) : WidgetPartial :=
  ⟨none, ty, none, none, some w, some h, none, none⟩

/-- The spec's drag scenario: widget `A` (3×2 at `(0,0)`) being dragged
toward `(1,0)` while `B` occupies `(3,0,w:3,h:2)`. -/
def c3Widgets : List Widget := [mkW "A" "a" 0 0 3 2, mkW "B" "b" 3 0 3 2]

/-- The drag-scenario state. -/
def c3State : AppState := ⟨grid0, c3Widgets, "system", [], "1.0.0"⟩

/-- A 12-column state with one 3×2 widget at the origin. -/
def oneWidgetState : AppState := ⟨grid0, [mkW "A" "a" 0 0 3 2], "system", [], "1.0.0"⟩

/-- A 12-column state with one widget `clock-1` at the origin. -/
def clockState : AppState :=
  ⟨grid0, [mkW "clock-1" "clock" 0 0 3 2], "system", [], "1.0.0"⟩

/-- A partial that supplies `x = 0`, `y = 0` and `minimized = true`. -/
def zeroPosPartial : WidgetPartial :=
  ⟨none, "notes", some 0, some 0, some 3, some 2, some true, none⟩

/-- A validated-path run that defeats the collision resolver: a 12×102
widget fills 102 rows, the next auto-placed widget lands below it at row
102, and dragging that widget to the top exhausts the validator's
100-attempt budget, committing an overlapping position. -/
def budgetOps : List GridOp :=
  [GridOp.add (autoPartial "a" 12 102),
   GridOp.add (autoPartial "b" 12 2),
   GridOp.drag "b-1" 0 0]

/-- A benign validated-path run: two auto-placed 3×2 widgets, then a drag
of the second to free space at `(6,0)`. -/
def benignOps : List GridOp :=
  [GridOp.add (autoPartial "a" 3 2),
   GridOp.add (autoPartial "b" 3 2),
   GridOp.drag "b-1" 6 0]

/-- The three auto-placed 3×2 widgets of the first-fit scenario. -/
def threeAdds : List SessionOp :=
  [SessionOp.add (autoPartial "a" 3 2),
   SessionOp.add (autoPartial "b" 3 2),
   SessionOp.add (autoPartial "c" 3 2)]

/-- A populated state for round-trip and import fixtures. -/
def darkState : AppState :=
  ⟨grid0, [mkW "clock-1" "clock" 0 0 3 2], "dark", [("autoSave", true)], "1.0.0"⟩

/-- The same state with another theme. -/
def lightState : AppState :=
  ⟨grid0, [mkW "clock-1" "clock" 0 0 3 2], "light", [("autoSave", true)], "1.0.0"⟩

/-- A minimal valid import payload: an empty `widgets` array and nothing
else. -/
def widgetsOnlyImport : ImportData := ⟨none, .arr [], none, none, none⟩

/-- An import payload whose `widgets` is a truthy non-array value
(`{widgets: "not-a-list"}`). -/
def notAListImport : ImportData := ⟨none, .notArray, none, none, none⟩

/-- The candidate range `findEmptyPosition` scans: columns `0..cols - width`
and rows `0..99`. -/
def emptyPosInRange (cols width : Int) (q : Int × Int) : Prop :=
  0 ≤ q.1 ∧ q.1 ≤ cols - width ∧ 0 ≤ q.2 ∧ q.2 < 100

/-!
## Basic geometry lemmas
-/

theorem rectsIntersect_eq_false_iff (x1 y1 w1 h1 x2 y2 w2 h2 : Int) :
    rectsIntersect x1 y1 w1 h1 x2 y2 w2 h2 = false ↔
      x1 + w1 ≤ x2 ∨ x2 + w2 ≤ x1 ∨ y1 + h1 ≤ y2 ∨ y2 + h2 ≤ y1 := by
  simp [rectsIntersect]
  omega

theorem rectsIntersect_comm (x1 y1 w1 h1 x2 y2 w2 h2 : Int) :
    rectsIntersect x1 y1 w1 h1 x2 y2 w2 h2 =
      rectsIntersect x2 y2 w2 h2 x1 y1 w1 h1 := by
  rw [Bool.eq_iff_iff]
  simp [rectsIntersect]
  omega

theorem coversCell_iff (wd : Widget) (cx cy : Int) :
    coversCell wd cx cy = true ↔
      wd.x ≤ cx ∧ cx < wd.x + wd.w ∧ wd.y ≤ cy ∧ cy < wd.y + wd.h := by
  simp [coversCell]
  tauto

theorem rectFree_iff (ws : List Widget) (width height x y : Int) :
    rectFree ws width height x y = true ↔
      ∀ cx cy : Int, x ≤ cx → cx < x + width → y ≤ cy → cy < y + height →
        cellOccupied ws cx cy = false := by
  unfold rectFree
  rw [List.all_eq_true]
  constructor
  · intro h cx cy h1 h2 h3 h4
    have hdx : (cx - x).toNat < width.toNat := by omega
    have hdy : (cy - y).toNat < height.toNat := by omega
    have h5 := h _ (List.mem_range.mpr hdx)
    rw [List.all_eq_true] at h5
    have h6 := h5 _ (List.mem_range.mpr hdy)
    have hx : x + (((cx - x).toNat : Nat) : Int) = cx := by omega
    have hy : y + (((cy - y).toNat : Nat) : Int) = cy := by omega
    rw [hx, hy] at h6
    simpa using h6
  · intro h dx hdx
    rw [List.all_eq_true]
    intro dy hdy
    rw [List.mem_range] at hdx hdy
    have h1 := h (x + (dx : Int)) (y + (dy : Int)) (by omega) (by omega)
      (by omega) (by omega)
    simp [h1]

/-!
## The push-down collision resolver (claim C3)
-/

theorem vpLoop_char (others : List Widget) (w h x : Int) :
    ∀ (n : Nat) (y : Int), ∃ k : Nat, k ≤ n ∧
      vpLoop others w h x y n = (x, y + (k : Int)) ∧
      (∀ j : Nat, j < k → (others.any fun wd =>
        rectsIntersect x (y + (j : Int)) w h wd.x wd.y wd.w wd.h) = true) ∧
      (k = n ∨ (others.any fun wd =>
        rectsIntersect x (y + (k : Int)) w h wd.x wd.y wd.w wd.h) = false) := by
  intro n
  induction n with
  | zero =>
    intro y
    exact ⟨0, Nat.le_refl 0, by simp [vpLoop], by omega, Or.inl rfl⟩
  | succ n ih =>
    intro y
    by_cases hc : (others.any fun wd =>
        rectsIntersect x y w h wd.x wd.y wd.w wd.h) = true
    · obtain ⟨k, hk, he, hall, hlast⟩ := ih (y + 1)
      refine ⟨k + 1, by omega, ?_, ?_, ?_⟩
      · rw [show vpLoop others w h x y (n + 1) =
            vpLoop others w h x (y + 1) n by rw [vpLoop]; simp [hc]]
        rw [he]
        congr 1
        push_cast
        ring
      · intro j hj
        match j with
        | 0 => simpa using hc
        | j' + 1 =>
          have h2 := hall j' (by omega)
          have harr : y + 1 + (j' : Int) = y + (((j' + 1 : Nat) : Nat) : Int) := by
            push_cast; ring
          rwa [harr] at h2
      · rcases hlast with hl | hl
        · exact Or.inl (by omega)
        · refine Or.inr ?_
          have harr : y + 1 + (k : Int) = y + (((k + 1 : Nat) : Nat) : Int) := by
            push_cast; ring
          rwa [harr] at hl
    · refine ⟨0, by omega, ?_, by omega, Or.inr ?_⟩
      · rw [vpLoop]
        simp [hc]
      · simpa using hc

/-- C3 (amended): `validatePosition` first clamps `x` into `[0, cols - w]`
and `y` into `[0, ∞)`, then increments `y` while the candidate intersects a
non-excluded widget, for at most 100 attempts, beyond which the last
candidate is returned even if it overlaps; a clamped candidate that
overlaps no widget is returned unchanged.  In the spec's drag scenario the
candidate `(1,0)` *does* intersect widget `B` at `(3,0,w:3,h:2)` (they share
column 3), so the resolver pushes down past `B` and the gesture commits at
`(1,2)`, not `(1,0)`. -/
theorem validatePosition_spec :
    (∀ (ws : List Widget) (cols x y w h : Int) (excludeId : String),
      ∃ k : Nat, k ≤ 100 ∧
        validatePosition ws cols x y w h excludeId =
          (max 0 (min x (cols - w)), max 0 y + (k : Int)) ∧
        (∀ j : Nat, j < k →
          ((ws.filter (fun wd => wd.id != excludeId)).any fun wd =>
            rectsIntersect (max 0 (min x (cols - w))) (max 0 y + (j : Int))
              w h wd.x wd.y wd.w wd.h) = true) ∧
        (k = 100 ∨
          ((ws.filter (fun wd => wd.id != excludeId)).any fun wd =>
            rectsIntersect (max 0 (min x (cols - w))) (max 0 y + (k : Int))
              w h wd.x wd.y wd.w wd.h) = false)) ∧
    (∀ (ws : List Widget) (cols x y w h : Int) (excludeId : String),
      ((ws.filter (fun wd => wd.id != excludeId)).any fun wd =>
        rectsIntersect (max 0 (min x (cols - w))) (max 0 y)
          w h wd.x wd.y wd.w wd.h) = false →
      validatePosition ws cols x y w h excludeId =
        (max 0 (min x (cols - w)), max 0 y)) ∧
    validatePosition c3Widgets 12 1 0 3 2 "A" = (1, 2) ∧
    dragCommit c3State "A" 1 0 =
      { c3State with widgets := [mkW "A" "a" 1 2 3 2, mkW "B" "b" 3 0 3 2] } := by
  have hmain : ∀ (ws : List Widget) (cols x y w h : Int) (excludeId : String),
      ∃ k : Nat, k ≤ 100 ∧
        validatePosition ws cols x y w h excludeId =
          (max 0 (min x (cols - w)), max 0 y + (k : Int)) ∧
        (∀ j : Nat, j < k →
          ((ws.filter (fun wd => wd.id != excludeId)).any fun wd =>
            rectsIntersect (max 0 (min x (cols - w))) (max 0 y + (j : Int))
              w h wd.x wd.y wd.w wd.h) = true) ∧
        (k = 100 ∨
          ((ws.filter (fun wd => wd.id != excludeId)).any fun wd =>
            rectsIntersect (max 0 (min x (cols - w))) (max 0 y + (k : Int))
              w h wd.x wd.y wd.w wd.h) = false) := by
    intro ws cols x y w h excludeId
    simpa [validatePosition] using
      vpLoop_char (ws.filter (fun wd => wd.id != excludeId)) w h
        (max 0 (min x (cols - w))) 100 (max 0 y)
  refine ⟨hmain, ?_, by decide, by decide⟩
  intro ws cols x y w h excludeId hfree
  obtain ⟨k, hk, he, hall, _⟩ := hmain ws cols x y w h excludeId
  have hk0 : k = 0 := by
    by_contra hne
    have := hall 0 (by omega)
    simp only [Nat.cast_zero, add_zero] at this
    rw [this] at hfree
    exact Bool.true_eq_false.mp hfree
  rw [hk0] at he
  simpa using he

/-- C3 counterexample: the spec's scenario claims the drag toward `(1,0)`
commits exactly `(1,0)`; on the code the candidate `(1,0,3,2)` intersects
`B = (3,0,3,2)` (both cover column 3), the resolver pushes the candidate
down to `(1,2)`, and that is what the gesture commits. -/
theorem validatePosition_scenario_counterexample :
    validatePosition c3Widgets 12 1 0 3 2 "A" ≠ (1, 0) ∧
    (dragCommit c3State "A" 1 0).widgets.map (fun wd => (wd.id, wd.x, wd.y)) =
      [("A", 1, 2), ("B", 3, 0)] := by decide

/-!
## The bounds invariant (claim C4)
-/

/-- C4 is violated by the pointer resize commit path: `validateResize`
floors `w` at 1 but never caps it at `cols`, so an east-handle resize of
the 3×2 widget at `(0,0)` by `+20` grid cells on a 12-column grid commits
the record `(x: 0, w: 23)`, with `x + w = 23 > 12`: after this committed
operation the bounds invariant `x + w ≤ columns` fails.  (The keyboard
handlers do check `x + w + 1 ≤ cols` before growing, and `validatePosition`
keeps a dragged widget inside the columns, so the claim fails specifically
on the pointer resize commit.) -/
theorem resizeCommit_bounds_bug :
    (resizeCommit oneWidgetState "A" Handle.hE 20 0).widgets.map
      (fun wd => (wd.x, wd.w)) = [(0, 23)] ∧
    oneWidgetState.grid.cols = 12 ∧
    (resizeCommit oneWidgetState "A" Handle.hE 20 0).widgets.all
      (fun wd => decide (0 ≤ wd.x) && decide (wd.x + wd.w ≤ 12) &&
        decide (1 ≤ wd.w) && decide (1 ≤ wd.h)) = false := by decide

/-!
## Resize-handle geometry (claim C5)
-/

/-- C5 counterexample: the claim says a W resize preserves `x + w` (the
east edge stays anchored).  With the original rectangle `(0,0,3,2)` and
`dgx = 3` the floor at width 1 engages while the origin still moves by
`dgx`, giving `x = 3, w = 1` and `x + w = 4 ≠ 0 + 3`. -/
theorem resize_anchor_counterexample :
    (applyResizeHandle Handle.hW 3 0 ⟨0, 0, 3, 2⟩).x +
      (applyResizeHandle Handle.hW 3 0 ⟨0, 0, 3, 2⟩).w ≠ 0 + 3 := by decide

/-- C5 (amended): edge handles change exactly one dimension (N/W also move
the corresponding origin coordinate); the opposite edge stays anchored
*provided* the new size stays at least 1 and the new origin stays at least
0 — when the floor at 1 cell or the clamp at 0 engages, the origin shift is
still applied and the opposite edge moves.  Corner handles change two
dimensions and 0–2 origin coordinates under the same rule, and the
committed width and height are always floored at 1 cell. -/
theorem resize_handle_spec :
    ∀ (dgx dgy : Int) (r : RectCand) (cols : Int),
      ((applyResizeHandle .hE dgx dgy r).x = r.x ∧
       (applyResizeHandle .hE dgx dgy r).y = r.y ∧
       (applyResizeHandle .hE dgx dgy r).h = r.h ∧
       (applyResizeHandle .hE dgx dgy r).w = max 1 (r.w + dgx)) ∧
      ((applyResizeHandle .hS dgx dgy r).x = r.x ∧
       (applyResizeHandle .hS dgx dgy r).y = r.y ∧
       (applyResizeHandle .hS dgx dgy r).w = r.w ∧
       (applyResizeHandle .hS dgx dgy r).h = max 1 (r.h + dgy)) ∧
      ((applyResizeHandle .hW dgx dgy r).y = r.y ∧
       (applyResizeHandle .hW dgx dgy r).h = r.h ∧
       (1 ≤ r.w - dgx → 0 ≤ r.x + dgx →
         (applyResizeHandle .hW dgx dgy r).x +
           (applyResizeHandle .hW dgx dgy r).w = r.x + r.w)) ∧
      ((applyResizeHandle .hN dgx dgy r).x = r.x ∧
       (applyResizeHandle .hN dgx dgy r).w = r.w ∧
       (1 ≤ r.h - dgy → 0 ≤ r.y + dgy →
         (applyResizeHandle .hN dgx dgy r).y +
           (applyResizeHandle .hN dgx dgy r).h = r.y + r.h)) ∧
      ((applyResizeHandle .hSE dgx dgy r).x = r.x ∧
       (applyResizeHandle .hSE dgx dgy r).y = r.y ∧
       (applyResizeHandle .hSE dgx dgy r).w = max 1 (r.w + dgx) ∧
       (applyResizeHandle .hSE dgx dgy r).h = max 1 (r.h + dgy)) ∧
      ((applyResizeHandle .hSW dgx dgy r).y = r.y ∧
       (applyResizeHandle .hSW dgx dgy r).h = max 1 (r.h + dgy) ∧
       (1 ≤ r.w - dgx → 0 ≤ r.x + dgx →
         (applyResizeHandle .hSW dgx dgy r).x +
           (applyResizeHandle .hSW dgx dgy r).w = r.x + r.w)) ∧
      ((applyResizeHandle .hNE dgx dgy r).x = r.x ∧
       (applyResizeHandle .hNE dgx dgy r).w = max 1 (r.w + dgx) ∧
       (1 ≤ r.h - dgy → 0 ≤ r.y + dgy →
         (applyResizeHandle .hNE dgx dgy r).y +
           (applyResizeHandle .hNE dgx dgy r).h = r.y + r.h)) ∧
      ((1 ≤ r.w - dgx → 0 ≤ r.x + dgx →
         (applyResizeHandle .hNW dgx dgy r).x +
           (applyResizeHandle .hNW dgx dgy r).w = r.x + r.w) ∧
       (1 ≤ r.h - dgy → 0 ≤ r.y + dgy →
         (applyResizeHandle .hNW dgx dgy r).y +
           (applyResizeHandle .hNW dgx dgy r).h = r.y + r.h)) ∧
      (∀ hd : Handle,
        1 ≤ (validateResize cols (applyResizeHandle hd dgx dgy r).x
              (applyResizeHandle hd dgx dgy r).y
              (applyResizeHandle hd dgx dgy r).w
              (applyResizeHandle hd dgx dgy r).h).2.2.1 ∧
        1 ≤ (validateResize cols (applyResizeHandle hd dgx dgy r).x
              (applyResizeHandle hd dgx dgy r).y
              (applyResizeHandle hd dgx dgy r).w
              (applyResizeHandle hd dgx dgy r).h).2.2.2) := by
  intro dgx dgy r cols
  refine ⟨⟨rfl, rfl, rfl, rfl⟩, ⟨rfl, rfl, rfl, rfl⟩, ⟨rfl, rfl, ?_⟩,
    ⟨rfl, rfl, ?_⟩, ⟨rfl, rfl, rfl, rfl⟩, ⟨rfl, rfl, ?_⟩, ⟨rfl, rfl, ?_⟩,
    ⟨?_, ?_⟩, ?_⟩
  · intro h1 h2; simp [applyResizeHandle]; omega
  · intro h1 h2; simp [applyResizeHandle]; omega
  · intro h1 h2; simp [applyResizeHandle]; omega
  · intro h1 h2; simp [applyResizeHandle]; omega
  · intro h1 h2; simp [applyResizeHandle]; omega
  · intro h1 h2; simp [applyResizeHandle]; omega
  · intro hd
    cases hd <;> simp [applyResizeHandle, validateResize] <;> omega

/-!
## `addWidget` defaults and field preservation (claim C6)
-/

/-- C6 counterexample: the claim says supplied fields are preserved and the
empty-position search runs only when *neither* `x` nor `y` was supplied.
Calling `addWidget` with `{x: 0, y: 0, w: 3, h: 2, minimized: true}` against
a state whose origin cell is occupied appends a record with `x = 3` (the
search ran, because JS `!0` is true) and `minimized = false` (the literal
after the spread always wins), so neither the supplied position nor the
supplied `minimized` survives. -/
theorem addWidget_supplied_fields_counterexample :
    ¬ ((addWidget clockState zeroPosPartial).2.x = 0 ∧
       (addWidget clockState zeroPosPartial).2.y = 0 ∧
       (addWidget clockState zeroPosPartial).2.minimized = true) := by decide

/-- C6 (amended): `addWidget` treats a supplied `0` like an unsupplied
field (JS falsiness): `w` and `h` default to 3 and 2 when absent *or zero*,
`minimized` is always `false` even when supplied, `type` and `config` are
copied verbatim, an absent `id` is filled by the generator, the record is
appended at the end of the list, and the empty-position search chooses
`(x, y)` iff `x` and `y` are both absent-or-zero (otherwise `x` and `y`
are the supplied values with absent-or-zero treated as 0). -/
theorem addWidget_defaults_spec :
    ∀ (s : AppState) (p : WidgetPartial),
      (addWidget s p).1.widgets = s.widgets ++ [(addWidget s p).2] ∧
      (addWidget s p).1.grid = s.grid ∧
      (addWidget s p).2.type = p.type ∧
      (addWidget s p).2.config = p.config ∧
      (addWidget s p).2.minimized = false ∧
      (addWidget s p).2.w = jsOrInt p.w 3 ∧
      (addWidget s p).2.h = jsOrInt p.h 2 ∧
      (p.id = none → (addWidget s p).2.id = generateWidgetId s.widgets p.type) ∧
      (p.id ≠ none → some (addWidget s p).2.id = p.id) ∧
      ((jsFalsyInt p.x && jsFalsyInt p.y) = true →
        ((addWidget s p).2.x, (addWidget s p).2.y) =
          findEmptyPosition s.widgets s.grid.cols (jsOrInt p.w 3) (jsOrInt p.h 2)) ∧
      ((jsFalsyInt p.x && jsFalsyInt p.y) = false →
        (addWidget s p).2.x = jsOrInt p.x 0 ∧
        (addWidget s p).2.y = jsOrInt p.y 0) := by
  intro s p
  by_cases hf : (jsFalsyInt p.x && jsFalsyInt p.y) = true
  · refine ⟨by simp [addWidget, hf], by simp [addWidget, hf], by simp [addWidget, hf],
      by simp [addWidget, hf], by simp [addWidget, hf], by simp [addWidget, hf],
      by simp [addWidget, hf], ?_, ?_, by simp [addWidget, hf], by simp [hf]⟩
    · intro hid; simp [addWidget, hf, hid]
    · intro hid
      match hpid : p.id with
      | some i => simp [addWidget, hf, hpid]
      | none => exact absurd hpid hid
  · refine ⟨by simp [addWidget, hf], by simp [addWidget, hf], by simp [addWidget, hf],
      by simp [addWidget, hf], by simp [addWidget, hf], by simp [addWidget, hf],
      by simp [addWidget, hf], ?_, ?_, by simp [hf], by simp [addWidget, hf]⟩
    · intro hid; simp [addWidget, hf, hid]
    · intro hid
      match hpid : p.id with
      | some i => simp [addWidget, hf, hpid]
      | none => exact absurd hpid hid

/-!
## `importLayout` (claim C8)
-/

/-- C8 counterexample: the claim says a payload whose `widgets` is an array
replaces the state *wholesale*.  In the code the payload is spread over the
current state (`{...this.state, ...layoutData, ...}`), so top-level fields
absent from the payload survive: importing `{widgets: []}` into a state
with theme `"dark"` keeps `"dark"`, while the identical payload imported
into a state with theme `"light"` keeps `"light"` — the resulting state
depends on the prior state, which a wholesale replacement would not. -/
theorem importLayout_wholesale_counterexample :
    (importLayout darkState widgetsOnlyImport).1 = true ∧
    (importLayout lightState widgetsOnlyImport).1 = true ∧
    (importLayout darkState widgetsOnlyImport).2.1.theme = "dark" ∧
    (importLayout lightState widgetsOnlyImport).2.1.theme = "light" ∧
    (importLayout darkState widgetsOnlyImport).2.1 ≠
      (importLayout lightState widgetsOnlyImport).2.1 := by decide

/-- C8 (amended): when `data.widgets` is missing or not an array,
`importLayout` returns `false`, emits `import-error`, and leaves the entire
state unchanged (in particular on `{widgets: "not-a-list"}`); when
`data.widgets` is an array it returns `true`, emits `layout-imported` with
a backup of the prior state, and *merges* the payload over the previous
state — supplied top-level fields replace the state's, absent ones are
retained — with the imported widget list replacing the old one after
backfilling an id for every widget missing one (ids generated against the
prior widget list). -/
theorem importLayout_spec :
    (∀ (s : AppState) (d : ImportData),
      ((∀ l, d.widgets ≠ WidgetsField.arr l) →
        importLayout s d = (false, s, [StateEvent.importError])) ∧
      (∀ l, d.widgets = WidgetsField.arr l →
        importLayout s d =
          (true,
           { grid := d.grid.getD s.grid,
             widgets := l.map (backfillWidget s.widgets),
             theme := d.theme.getD s.theme,
             settings := d.settings.getD s.settings,
             version := d.version.getD s.version },
           [StateEvent.layoutImported s]))) ∧
    importLayout darkState notAListImport =
      (false, darkState, [StateEvent.importError]) := by
  refine ⟨?_, by decide⟩
  intro s d
  constructor
  · intro hno
    match hw : d.widgets with
    | .absent => simp [importLayout, hw]
    | .notArray => simp [importLayout, hw]
    | .arr l => exact absurd hw (hno l)
  · intro l hl
    simp [importLayout, hl]

/-!
## `updateFirst` frame lemmas and the drag commit (claim C10)
-/

theorem updateFirst_forall₂ (p : Widget → Bool) (f : Widget → Widget) :
    ∀ ws : List Widget,
      List.Forall₂ (fun a b => (b = a ∨ b = f a) ∧ (p a = false → b = a))
        ws (updateFirst p f ws).1 := by
  intro ws
  induction ws with
  | nil => simp [updateFirst]
  | cons a rest ih =>
    by_cases hp : p a = true
    · simp only [updateFirst, hp, if_true]
      refine List.Forall₂.cons ⟨Or.inr rfl, by simp [hp]⟩ ?_
      exact List.forall₂_same.mpr fun b _ => ⟨Or.inl rfl, fun _ => rfl⟩
    · simp only [updateFirst, hp, if_false]
      exact List.Forall₂.cons ⟨Or.inl rfl, fun _ => rfl⟩ ih

theorem updateFirst_bool_false (p : Widget → Bool) (f : Widget → Widget) :
    ∀ ws : List Widget, (updateFirst p f ws).2 = false → (updateFirst p f ws).1 = ws := by
  intro ws
  induction ws with
  | nil => intro _; simp [updateFirst]
  | cons a rest ih =>
    by_cases hp : p a = true
    · simp [updateFirst, hp]
    · simp only [updateFirst, hp, if_false]
      intro h2
      simp_all

/-- C10: a committed drag changes at most the dragged widget's `x` and `y`.
`endDrag` commits an `{x, y}` pair through `moveWidget` (and only when it
differs from the gesture-start position), so for every state, dragged id
and pointer target cell: the grid settings, theme, settings and version are
untouched; the widget list keeps its length and order; every record keeps
its `id`, `type`, `w`, `h`, `minimized` flag and `config`; and every record
other than the dragged one is entirely unchanged. -/
theorem dragCommit_frame :
    ∀ (s : AppState) (widgetId : String) (gx gy : Int),
      (dragCommit s widgetId gx gy).grid = s.grid ∧
      (dragCommit s widgetId gx gy).theme = s.theme ∧
      (dragCommit s widgetId gx gy).settings = s.settings ∧
      (dragCommit s widgetId gx gy).version = s.version ∧
      List.Forall₂ (fun a b =>
        a.id = b.id ∧ a.type = b.type ∧ a.w = b.w ∧ a.h = b.h ∧
        a.minimized = b.minimized ∧ a.config = b.config ∧
        (a.id ≠ widgetId → a = b))
        s.widgets (dragCommit s widgetId gx gy).widgets := by
  intro s widgetId gx gy
  have hrefl : List.Forall₂ (fun a b =>
      a.id = b.id ∧ a.type = b.type ∧ a.w = b.w ∧ a.h = b.h ∧
      a.minimized = b.minimized ∧ a.config = b.config ∧
      (a.id ≠ widgetId → a = b)) s.widgets s.widgets :=
    List.forall₂_same.mpr fun a _ => ⟨rfl, rfl, rfl, rfl, rfl, rfl, fun _ => rfl⟩
  match hfind : s.widgets.find? (fun wd => wd.id == widgetId) with
  | none =>
    simp only [dragCommit, hfind]
    exact ⟨by trivial, by trivial, by trivial, by trivial, hrefl⟩
  | some wd =>
    simp only [dragCommit, hfind]
    split
    · refine ⟨by trivial, by trivial, by trivial, by trivial, ?_⟩
      have h2 := updateFirst_forall₂ (fun u => u.id == widgetId)
        (applyUpdates { WidgetUpdates.empty with
          x := some (validatePosition s.widgets s.grid.cols gx gy wd.w wd.h widgetId).1,
          y := some (validatePosition s.widgets s.grid.cols gx gy wd.w wd.h widgetId).2 })
        s.widgets
      refine List.Forall₂.imp ?_ h2
      intro a b hab
      obtain ⟨hb, hfalse⟩ := hab
      have hfields : ∀ c : Widget,
          (applyUpdates { WidgetUpdates.empty with
            x := some (validatePosition s.widgets s.grid.cols gx gy wd.w wd.h widgetId).1,
            y := some (validatePosition s.widgets s.grid.cols gx gy wd.w wd.h widgetId).2 } c).id = c.id ∧
          (applyUpdates { WidgetUpdates.empty with
            x := some (validatePosition s.widgets s.grid.cols gx gy wd.w wd.h widgetId).1,
            y := some (validatePosition s.widgets s.grid.cols gx gy wd.w wd.h widgetId).2 } c).type = c.type ∧
          (applyUpdates { WidgetUpdates.empty with
            x := some (validatePosition s.widgets s.grid.cols gx gy wd.w wd.h widgetId).1,
            y := some (validatePosition s.widgets s.grid.cols gx gy wd.w wd.h widgetId).2 } c).w = c.w ∧
          (applyUpdates { WidgetUpdates.empty with
            x := some (validatePosition s.widgets s.grid.cols gx gy wd.w wd.h widgetId).1,
            y := some (validatePosition s.widgets s.grid.cols gx gy wd.w wd.h widgetId).2 } c).h = c.h ∧
          (applyUpdates { WidgetUpdates.empty with
            x := some (validatePosition s.widgets s.grid.cols gx gy wd.w wd.h widgetId).1,
            y := some (validatePosition s.widgets s.grid.cols gx gy wd.w wd.h widgetId).2 } c).minimized = c.minimized ∧
          (applyUpdates { WidgetUpdates.empty with
            x := some (validatePosition s.widgets s.grid.cols gx gy wd.w wd.h widgetId).1,
            y := some (validatePosition s.widgets s.grid.cols gx gy wd.w wd.h widgetId).2 } c).config = c.config := by
        intro c
        refine ⟨rfl, rfl, rfl, rfl, rfl, ?_⟩
        simp [applyUpdates, WidgetUpdates.empty]
      rcases hb with hb | hb
      · subst hb
        exact ⟨rfl, rfl, rfl, rfl, rfl, rfl, fun _ => rfl⟩
      · subst hb
        obtain ⟨f1, f2, f3, f4, f5, f6⟩ := hfields a
        refine ⟨f1.symm, f2.symm, f3.symm, f4.symm, f5.symm, f6.symm, ?_⟩
        intro hne
        have : (fun u : Widget => u.id == widgetId) a = false := by
          simp [hne]
        exact (hfalse this).symm
    · exact ⟨by trivial, by trivial, by trivial, by trivial, hrefl⟩

/-!
## The row-major first-fit search (claim C2)
-/

theorem scanColsFrom_eq_some (g : Int → Bool) :
    ∀ (n : Nat) (x x0 : Int), scanColsFrom g x n = some x0 →
      g x0 = true ∧ x ≤ x0 ∧ x0 < x + (n : Int) ∧
      ∀ t : Int, x ≤ t → t < x0 → g t = false := by
  intro n
  induction n with
  | zero => intro x x0 h; simp [scanColsFrom] at h
  | succ n ih =>
    intro x x0 h
    rw [scanColsFrom] at h
    split at h
    case isTrue hg =>
      injection h with h
      subst h
      exact ⟨hg, le_refl _, by push_cast; omega,
        fun t ht1 ht2 => False.elim (by omega)⟩
    case isFalse hg =>
      obtain ⟨h1, h2, h3, h4⟩ := ih (x + 1) x0 h
      refine ⟨h1, by omega, by push_cast at h3 ⊢; omega, ?_⟩
      intro t ht1 ht2
      by_cases he : t = x
      · subst he; simpa using hg
      · exact h4 t (by omega) ht2

theorem scanColsFrom_eq_none (g : Int → Bool) :
    ∀ (n : Nat) (x : Int), scanColsFrom g x n = none →
      ∀ t : Int, x ≤ t → t < x + (n : Int) → g t = false := by
  intro n
  induction n with
  | zero => intro x _ t ht1 ht2; exact False.elim (by push_cast at ht2; omega)
  | succ n ih =>
    intro x h t ht1 ht2
    rw [scanColsFrom] at h
    split at h
    case isTrue hg => exact absurd h (by simp)
    case isFalse hg =>
      by_cases he : t = x
      · subst he; simpa using hg
      · exact ih (x + 1) h t (by omega) (by push_cast at ht2 ⊢; omega)

theorem scanRowsFrom_eq_some (f : Int → Option Int) :
    ∀ (n : Nat) (y : Int) (p : Int × Int), scanRowsFrom f y n = some p →
      f p.2 = some p.1 ∧ y ≤ p.2 ∧ p.2 < y + (n : Int) ∧
      ∀ t : Int, y ≤ t → t < p.2 → f t = none := by
  intro n
  induction n with
  | zero => intro y p h; simp [scanRowsFrom] at h
  | succ n ih =>
    intro y p h
    rw [scanRowsFrom] at h
    match hf : f y with
    | some x =>
      rw [hf] at h
      injection h with h
      subst h
      exact ⟨hf, le_refl _, by push_cast; omega,
        fun t ht1 ht2 => False.elim (by omega)⟩
    | none =>
      rw [hf] at h
      obtain ⟨h1, h2, h3, h4⟩ := ih (y + 1) p h
      refine ⟨h1, by omega, by push_cast at h3 ⊢; omega, ?_⟩
      intro t ht1 ht2
      by_cases he : t = y
      · subst he; exact hf
      · exact h4 t (by omega) ht2

theorem scanRowsFrom_eq_none (f : Int → Option Int) :
    ∀ (n : Nat) (y : Int), scanRowsFrom f y n = none →
      ∀ t : Int, y ≤ t → t < y + (n : Int) → f t = none := by
  intro n
  induction n with
  | zero => intro y _ t ht1 ht2; exact False.elim (by push_cast at ht2; omega)
  | succ n ih =>
    intro y h t ht1 ht2
    rw [scanRowsFrom] at h
    match hf : f y with
    | some x => rw [hf] at h; exact absurd h (by simp)
    | none =>
      rw [hf] at h
      by_cases he : t = y
      · subst he; exact hf
      · exact ih (y + 1) h t (by omega) (by push_cast at ht2 ⊢; omega)

/-- C2: `findEmptyPosition(width, height)` returns the row-major first
position — scanning rows `y = 0..99` and, within each row, columns
`x = 0..cols − width` — whose `width × height` rectangle contains no
occupied cell, falling back to `(0, max(0, max over widgets of y+h))` when
no candidate in that range is free.  The result is a pure function of the
widget list, `cols` and `(w, h)` (determinism is inherent: the
characterisation below pins the result uniquely).  On an empty 12-column
grid, three auto-placed 3×2 widgets land at `(0,0)`, `(3,0)`, `(6,0)`. -/
theorem findEmptyPosition_spec :
    (∀ (ws : List Widget) (cols width height : Int),
      (emptyPosInRange cols width (findEmptyPosition ws cols width height) ∧
       rectFree ws width height (findEmptyPosition ws cols width height).1
         (findEmptyPosition ws cols width height).2 = true ∧
       (∀ q : Int × Int, emptyPosInRange cols width q →
         rectFree ws width height q.1 q.2 = true →
         (findEmptyPosition ws cols width height).2 < q.2 ∨
         ((findEmptyPosition ws cols width height).2 = q.2 ∧
          (findEmptyPosition ws cols width height).1 ≤ q.1))) ∨
      ((∀ q : Int × Int, emptyPosInRange cols width q →
         rectFree ws width height q.1 q.2 = false) ∧
       findEmptyPosition ws cols width height = (0, maxBottom ws))) ∧
    (runSession emptyState threeAdds).widgets.map
      (fun wd => (wd.id, wd.x, wd.y)) =
      [("a-1", 0, 0), ("b-1", 3, 0), ("c-1", 6, 0)] := by
  refine ⟨?_, by decide⟩
  intro ws cols width height
  match hscan : scanRowsFrom
      (fun y => scanColsFrom (fun x => rectFree ws width height x y) 0
        (cols - width + 1).toNat) 0 100 with
  | some p =>
    left
    have hres : findEmptyPosition ws cols width height = p := by
      simp [findEmptyPosition, hscan]
    obtain ⟨hrow, hy0, hy100, hrowbefore⟩ := scanRowsFrom_eq_some _ 100 0 p hscan
    obtain ⟨hfree, hx0, hxlt, hxbefore⟩ := scanColsFrom_eq_some _ _ 0 p.1 hrow
    rw [hres]
    have hxr : p.1 ≤ cols - width := by omega
    refine ⟨⟨hx0, hxr, hy0, by push_cast at hy100; omega⟩, hfree, ?_⟩
    intro q hq hqfree
    by_contra hcon
    obtain ⟨hq1, hq2, hq3, hq4⟩ := hq
    rcases (show q.2 < p.2 ∨ (q.2 = p.2 ∧ q.1 < p.1) by omega) with hlt | ⟨heq, hlt⟩
    · have hnone := hrowbefore q.2 hq3 hlt
      have hgf := scanColsFrom_eq_none _ _ 0 hnone q.1 hq1 (by omega)
      rw [hqfree] at hgf
      exact Bool.true_eq_false.mp hgf
    · have hgf := hxbefore q.1 hq1 hlt
      rw [show p.2 = q.2 from heq.symm, hqfree] at hgf
      exact Bool.true_eq_false.mp hgf
  | none =>
    right
    have hres : findEmptyPosition ws cols width height = (0, maxBottom ws) := by
      simp [findEmptyPosition, hscan]
    refine ⟨?_, hres⟩
    intro q hq
    obtain ⟨hq1, hq2, hq3, hq4⟩ := hq
    have hrownone := scanRowsFrom_eq_none _ 100 0 hscan q.2 hq3 (by omega)
    exact scanColsFrom_eq_none _ _ 0 hrownone q.1 hq1 (by omega)

/-!
## Unique id generation (claim C7)
-/

theorem stringData_inj {s t : String} (h : s.data = t.data) : s = t := by
  cases s; cases t; exact congrArg String.mk h

theorem digitChar_inj_lt : ∀ a < 10, ∀ b < 10,
    Nat.digitChar a = Nat.digitChar b → a = b := by decide

theorem natDigitsRevAux_fuel_eq :
    ∀ (f1 f2 n : Nat), n < f1 → n < f2 →
      natDigitsRevAux f1 n = natDigitsRevAux f2 n := by
  intro f1
  induction f1 with
  | zero => intro f2 n h1 _; omega
  | succ f ih =>
    intro f2 n h1 h2
    match f2 with
    | 0 => omega
    | f2' + 1 =>
      rw [natDigitsRevAux, natDigitsRevAux]
      by_cases h : n < 10
      · simp [h]
      · simp only [if_neg h]
        congr 1
        exact ih f2' (n / 10) (by omega) (by omega)

theorem natDigitsRevAux_ne_nil : ∀ n : Nat, natDigitsRevAux (n + 1) n ≠ [] := by
  intro n
  rw [natDigitsRevAux]
  by_cases h : n < 10 <;> simp [h]

theorem natDigitsRevAux_inj :
    ∀ n m : Nat, natDigitsRevAux (n + 1) n = natDigitsRevAux (m + 1) m → n = m := by
  intro n
  induction n using Nat.strong_induction_on with
  | _ n ih =>
    intro m h
    rw [natDigitsRevAux, natDigitsRevAux] at h
    by_cases hn : n < 10 <;> by_cases hm : m < 10
    · simp only [if_pos hn, if_pos hm] at h
      injection h with h _
      exact digitChar_inj_lt n hn m hm h
    · simp only [if_pos hn, if_neg hm] at h
      injection h with _ h
      have h2 : natDigitsRevAux m (m / 10) = natDigitsRevAux (m / 10 + 1) (m / 10) :=
        natDigitsRevAux_fuel_eq m (m / 10 + 1) (m / 10) (by omega) (by omega)
      rw [h2] at h
      exact absurd h.symm (natDigitsRevAux_ne_nil (m / 10))
    · simp only [if_neg hn, if_pos hm] at h
      injection h with _ h
      have h2 : natDigitsRevAux n (n / 10) = natDigitsRevAux (n / 10 + 1) (n / 10) :=
        natDigitsRevAux_fuel_eq n (n / 10 + 1) (n / 10) (by omega) (by omega)
      rw [h2] at h
      exact absurd h (natDigitsRevAux_ne_nil (n / 10))
    · simp only [if_neg hn, if_neg hm] at h
      injection h with hhead htail
      have hmod := digitChar_inj_lt (n % 10) (by omega) (m % 10) (by omega) hhead
      have h2 : natDigitsRevAux n (n / 10) = natDigitsRevAux (n / 10 + 1) (n / 10) :=
        natDigitsRevAux_fuel_eq n (n / 10 + 1) (n / 10) (by omega) (by omega)
      have h3 : natDigitsRevAux m (m / 10) = natDigitsRevAux (m / 10 + 1) (m / 10) :=
        natDigitsRevAux_fuel_eq m (m / 10 + 1) (m / 10) (by omega) (by omega)
      rw [h2, h3] at htail
      have hdiv := ih (n / 10) (by omega) (m / 10) htail
      omega

theorem natToString_inj : ∀ n m : Nat, natToString n = natToString m → n = m := by
  intro n m h
  have hd : (natDigitsRevAux (n + 1) n).reverse =
      (natDigitsRevAux (m + 1) m).reverse := congrArg String.data h
  exact natDigitsRevAux_inj n m (List.reverse_inj.mp hd)

theorem mkWidgetId_inj (ty : String) :
    ∀ a b : Nat, mkWidgetId ty a = mkWidgetId ty b → a = b := by
  intro a b h
  have hd := congrArg String.data h
  simp only [mkWidgetId, String.data_append, List.append_assoc] at hd
  have h2 := List.append_cancel_left hd
  have h3 := List.append_cancel_left h2
  exact natToString_inj a b (stringData_inj h3)

theorem genIdAux_spec (ids : List String) (ty : String) :
    ∀ (fuel c : Nat),
      (∃ m, c ≤ m ∧ m < c + fuel ∧ mkWidgetId ty m ∉ ids) →
      ∃ n, c ≤ n ∧ genIdAux ids ty c fuel = mkWidgetId ty n ∧
        mkWidgetId ty n ∉ ids ∧ ∀ m, c ≤ m → m < n → mkWidgetId ty m ∈ ids := by
  intro fuel
  induction fuel with
  | zero =>
    intro c hex
    obtain ⟨m, h1, h2, _⟩ := hex
    omega
  | succ fuel ih =>
    intro c hex
    rw [genIdAux]
    by_cases hc : mkWidgetId ty c ∈ ids
    · simp only [if_pos hc]
      obtain ⟨m, h1, h2, h3⟩ := hex
      have hm : m ≠ c := by
        intro he
        rw [he] at h3
        exact h3 hc
      obtain ⟨n, g1, g2, g3, g4⟩ := ih (c + 1) ⟨m, by omega, by omega, h3⟩
      refine ⟨n, by omega, g2, g3, ?_⟩
      intro m' hm1 hm2
      by_cases he : m' = c
      · rw [he]; exact hc
      · exact g4 m' (by omega) hm2
    · simp only [if_neg hc]
      exact ⟨c, le_refl _, rfl, hc, fun m h1 h2 => False.elim (by omega)⟩

theorem mkWidgetId_exists_unused (ids : List String) (ty : String) (c : Nat) :
    ∃ m, c ≤ m ∧ m < c + (ids.length + 1) ∧ mkWidgetId ty m ∉ ids := by
  classical
  by_contra hcon
  push_neg at hcon
  have hnodup : ((List.range (ids.length + 1)).map
      (fun i => mkWidgetId ty (c + i))).Nodup := by
    refine List.Nodup.map_on ?_ (List.nodup_range _)
    intro a _ b _ hab
    have := mkWidgetId_inj ty (c + a) (c + b) hab
    omega
  have hsub : ((List.range (ids.length + 1)).map
      (fun i => mkWidgetId ty (c + i))) ⊆ ids := by
    intro s hs
    simp only [List.mem_map, List.mem_range] at hs
    obtain ⟨i, hi, rfl⟩ := hs
    exact hcon (c + i) (by omega) (by omega)
  have h1 : ((List.range (ids.length + 1)).map
      (fun i => mkWidgetId ty (c + i))).toFinset.card =
      ((List.range (ids.length + 1)).map (fun i => mkWidgetId ty (c + i))).length :=
    List.toFinset_card_of_nodup hnodup
  have h2 : ((List.range (ids.length + 1)).map
      (fun i => mkWidgetId ty (c + i))).toFinset ⊆ ids.toFinset := by
    intro a ha
    simp only [List.mem_toFinset] at ha ⊢
    exact hsub ha
  have h3 : ids.toFinset.card ≤ ids.length := ids.toFinset_card_le
  have h4 := Finset.card_le_card h2
  simp only [List.length_map, List.length_range] at h1
  omega

theorem generateWidgetId_spec (ws : List Widget) (ty : String) :
    ∃ n : Nat, 1 ≤ n ∧ generateWidgetId ws ty = mkWidgetId ty n ∧
      mkWidgetId ty n ∉ ws.map (fun wd => wd.id) ∧
      ∀ m, 1 ≤ m → m < n → mkWidgetId ty m ∈ ws.map (fun wd => wd.id) := by
  have hlen : (ws.map (fun wd => wd.id)).length = ws.length := List.length_map ws _
  have hex := mkWidgetId_exists_unused (ws.map (fun wd => wd.id)) ty 1
  rw [hlen] at hex
  obtain ⟨n, g1, g2, g3, g4⟩ :=
    genIdAux_spec (ws.map (fun wd => wd.id)) ty (ws.length + 1) 1 hex
  exact ⟨n, g1, g2, g3, fun m h1 h2 => g4 m h1 h2⟩

theorem generateWidgetId_not_mem (ws : List Widget) (ty : String) :
    generateWidgetId ws ty ∉ ws.map (fun wd => wd.id) := by
  obtain ⟨n, _, h2, h3, _⟩ := generateWidgetId_spec ws ty
  rw [h2]
  exact h3

theorem addWidget_ids (s : AppState) (p : WidgetPartial) (hid : p.id = none) :
    (addWidget s p).1.widgets.map (fun wd => wd.id) =
      s.widgets.map (fun wd => wd.id) ++ [generateWidgetId s.widgets p.type] := by
  by_cases hf : (jsFalsyInt p.x && jsFalsyInt p.y) = true <;>
    simp [addWidget, hf, hid]

theorem duplicateWidget_ids (s : AppState) (widgetId : String) :
    (duplicateWidget s widgetId).1.widgets.map (fun wd => wd.id) =
      s.widgets.map (fun wd => wd.id) ∨
    ∃ ty, (duplicateWidget s widgetId).1.widgets.map (fun wd => wd.id) =
      s.widgets.map (fun wd => wd.id) ++ [generateWidgetId s.widgets ty] := by
  match hf : s.widgets.find? (fun wd => wd.id == widgetId) with
  | none => left; simp [duplicateWidget, hf]
  | some wd =>
    right
    refine ⟨wd.type, ?_⟩
    by_cases hb : wd.x + wd.w + wd.w > s.grid.cols <;>
      simp [duplicateWidget, hf, hb]

theorem duplicateWidget_some (s : AppState) (widgetId : String) (found : Widget)
    (hf : s.widgets.find? (fun u => u.id == widgetId) = some found) :
    ∃ dup : Widget,
      (duplicateWidget s widgetId).2 = some dup ∧
      dup.id = generateWidgetId s.widgets found.type ∧
      dup.type = found.type := by
  by_cases hb : found.x + found.w + found.w > s.grid.cols
  · refine ⟨{ found with
                id := generateWidgetId s.widgets found.type,
                x := (findEmptyPosition s.widgets s.grid.cols found.w found.h).1,
                y := (findEmptyPosition s.widgets s.grid.cols found.w found.h).2 },
      ?_, rfl, rfl⟩
    simp only [duplicateWidget, hf]
    rw [if_pos (by simpa using hb)]
  · refine ⟨{ found with
                id := generateWidgetId s.widgets found.type,
                x := found.x + found.w }, ?_, rfl, rfl⟩
    simp only [duplicateWidget, hf]
    rw [if_neg (by simpa using hb)]

theorem applySessionOp_nodup (s : AppState) (op : SessionOp)
    (hop : ∀ p, op = SessionOp.add p → p.id = none)
    (hnd : (s.widgets.map (fun wd => wd.id)).Nodup) :
    ((applySessionOp s op).widgets.map (fun wd => wd.id)).Nodup := by
  match op with
  | .add p =>
    have hid := hop p rfl
    rw [show applySessionOp s (SessionOp.add p) = (addWidget s p).1 from rfl,
      addWidget_ids s p hid]
    rw [List.nodup_append]
    refine ⟨hnd, List.nodup_singleton _, ?_⟩
    intro a ha hb
    simp only [List.mem_singleton] at hb
    rw [hb] at ha
    exact generateWidgetId_not_mem s.widgets p.type ha
  | .dup widgetId =>
    rcases duplicateWidget_ids s widgetId with h | ⟨ty, h⟩
    · rw [show applySessionOp s (SessionOp.dup widgetId) =
        (duplicateWidget s widgetId).1 from rfl, h]
      exact hnd
    · rw [show applySessionOp s (SessionOp.dup widgetId) =
        (duplicateWidget s widgetId).1 from rfl, h]
      rw [List.nodup_append]
      refine ⟨hnd, List.nodup_singleton _, ?_⟩
      intro a ha hb
      simp only [List.mem_singleton] at hb
      rw [hb] at ha
      exact generateWidgetId_not_mem s.widgets ty ha

theorem runSession_nodup : ∀ (ops : List SessionOp) (s : AppState),
    sessionNoCallerIds ops = true →
    (s.widgets.map (fun wd => wd.id)).Nodup →
    ((runSession s ops).widgets.map (fun wd => wd.id)).Nodup := by
  intro ops
  induction ops with
  | nil => intro s _ h; simpa [runSession] using h
  | cons op rest ih =>
    intro s hids hnd
    have hrest : sessionNoCallerIds rest = true := by
      match op with
      | .add p =>
        rw [sessionNoCallerIds] at hids
        exact (Bool.and_eq_true_iff.mp hids).2
      | .dup widgetId => exact hids
    have hop : ∀ p, op = SessionOp.add p → p.id = none := by
      intro p hp
      rw [hp] at hids
      rw [sessionNoCallerIds] at hids
      have := (Bool.and_eq_true_iff.mp hids).1
      exact Option.isNone_iff_eq_none.mp this
    have hstep := applySessionOp_nodup s op hop hnd
    rw [show runSession s (op :: rest) =
      runSession (applySessionOp s op) rest from rfl]
    exact ih (applySessionOp s op) hrest hstep

/-- C7: every id assigned by `addWidget` (when the caller's partial carries
no `id` of its own — which is how every caller in the application invokes
it) or by `duplicateWidget` is `"<type>-<n>"` for the smallest `n ≥ 1` such
that this id is not already present in the widget list; consequently the
assigned id never collides with an id still present, and over any session
of widget-creating operations the ids stay pairwise distinct. -/
theorem widgetId_assignment_spec :
    (∀ (ws : List Widget) (ty : String), ∃ n : Nat, 1 ≤ n ∧
       generateWidgetId ws ty = mkWidgetId ty n ∧
       mkWidgetId ty n ∉ ws.map (fun wd => wd.id) ∧
       ∀ m, 1 ≤ m → m < n → mkWidgetId ty m ∈ ws.map (fun wd => wd.id)) ∧
    (∀ (s : AppState) (p : WidgetPartial), p.id = none →
       (addWidget s p).2.id = generateWidgetId s.widgets p.type ∧
       (addWidget s p).2.id ∉ s.widgets.map (fun wd => wd.id)) ∧
    (∀ (s : AppState) (widgetId : String) (wd : Widget),
       (duplicateWidget s widgetId).2 = some wd →
       wd.id = generateWidgetId s.widgets wd.type ∧
       wd.id ∉ s.widgets.map (fun u => u.id)) ∧
    (∀ (ops : List SessionOp) (s : AppState),
       sessionNoCallerIds ops = true →
       (s.widgets.map (fun wd => wd.id)).Nodup →
       ((runSession s ops).widgets.map (fun wd => wd.id)).Nodup) := by
  refine ⟨generateWidgetId_spec, ?_, ?_, runSession_nodup⟩
  · intro s p hid
    have h1 : (addWidget s p).2.id = generateWidgetId s.widgets p.type := by
      by_cases hf : (jsFalsyInt p.x && jsFalsyInt p.y) = true <;>
        simp [addWidget, hf, hid]
    exact ⟨h1, h1 ▸ generateWidgetId_not_mem s.widgets p.type⟩
  · intro s widgetId wd hdup
    match hf : s.widgets.find? (fun u => u.id == widgetId) with
    | none =>
      rw [show duplicateWidget s widgetId = (s, none) by
        simp [duplicateWidget, hf]] at hdup
      exact absurd hdup (by simp)
    | some found =>
      obtain ⟨dup, h1, h2, h3⟩ := duplicateWidget_some s widgetId found hf
      rw [h1] at hdup
      injection hdup with hdup
      subst hdup
      constructor
      · rw [h2, h3]
      · rw [h2]
        exact generateWidgetId_not_mem s.widgets found.type

/-!
## The no-overlap invariant (claim C1)
-/

theorem pairwiseFree_iff (ws : List Widget) :
    pairwiseFree ws = true ↔ List.Pairwise (fun a b =>
      rectsIntersect a.x a.y a.w a.h b.x b.y b.w b.h = false) ws := by
  induction ws with
  | nil => simp [pairwiseFree]
  | cons a rest ih =>
    rw [pairwiseFree, Bool.and_eq_true, List.all_eq_true, List.pairwise_cons, ih]
    constructor
    · intro ⟨h1, h2⟩
      exact ⟨fun b hb => by simpa using h1 b hb, h2⟩
    · intro ⟨h1, h2⟩
      exact ⟨fun b hb => by simpa using h1 b hb, h2⟩

theorem maxBottom_le (ws : List Widget) : ∀ u ∈ ws, u.y + u.h ≤ maxBottom ws := by
  induction ws with
  | nil => simp
  | cons a rest ih =>
    intro u hu
    rcases List.mem_cons.mp hu with hu | hu
    · subst hu
      show u.y + u.h ≤ max (u.y + u.h) (maxBottom rest)
      omega
    · have := ih u hu
      show u.y + u.h ≤ max (a.y + a.h) (maxBottom rest)
      omega

theorem findEmptyPosition_no_collision (ws : List Widget) (cols width height : Int)
    (hw : 1 ≤ width) (hh : 1 ≤ height) (hdims : dimsPositive ws = true) :
    ∀ u ∈ ws,
      rectsIntersect (findEmptyPosition ws cols width height).1
        (findEmptyPosition ws cols width height).2 width height
        u.x u.y u.w u.h = false := by
  intro u hu
  have hud : 1 ≤ u.w ∧ 1 ≤ u.h := by
    rw [dimsPositive, List.all_eq_true] at hdims
    simpa using hdims u hu
  match hscan : scanRowsFrom
      (fun y => scanColsFrom (fun x => rectFree ws width height x y) 0
        (cols - width + 1).toNat) 0 100 with
  | some p =>
    have hres : findEmptyPosition ws cols width height = p := by
      simp [findEmptyPosition, hscan]
    obtain ⟨hrow, _, _, _⟩ := scanRowsFrom_eq_some _ 100 0 p hscan
    obtain ⟨hfree, _, _, _⟩ := scanColsFrom_eq_some _ _ 0 p.1 hrow
    rw [hres]
    by_contra hcol
    have hcol2 : rectsIntersect p.1 p.2 width height u.x u.y u.w u.h = true := by
      revert hcol
      cases rectsIntersect p.1 p.2 width height u.x u.y u.w u.h <;> simp
    have hlt : u.x < p.1 + width ∧ p.1 < u.x + u.w ∧
        u.y < p.2 + height ∧ p.2 < u.y + u.h := by
      have h2 := rectsIntersect_eq_false_iff p.1 p.2 width height u.x u.y u.w u.h
      have h3 : ¬ (p.1 + width ≤ u.x ∨ u.x + u.w ≤ p.1 ∨
          p.2 + height ≤ u.y ∨ u.y + u.h ≤ p.2) := by
        intro hdisj
        have h4 := h2.mpr hdisj
        rw [hcol2] at h4
        exact Bool.true_eq_false.mp h4
      omega
    have hcc : coversCell u (max p.1 u.x) (max p.2 u.y) = true := by
      rw [coversCell_iff]
      omega
    have hocc : cellOccupied ws (max p.1 u.x) (max p.2 u.y) = true := by
      rw [cellOccupied, List.any_eq_true]
      exact ⟨u, hu, hcc⟩
    have hfree2 := (rectFree_iff ws width height p.1 p.2).mp hfree
      (max p.1 u.x) (max p.2 u.y) (by omega) (by omega) (by omega) (by omega)
    rw [hocc] at hfree2
    exact Bool.true_eq_false.mp hfree2
  | none =>
    have hres : findEmptyPosition ws cols width height = (0, maxBottom ws) := by
      simp [findEmptyPosition, hscan]
    rw [hres, rectsIntersect_eq_false_iff]
    right; right; right
    exact maxBottom_le ws u hu

theorem pairwiseFree_append (ws : List Widget) (v : Widget) :
    pairwiseFree (ws ++ [v]) = true ↔
      pairwiseFree ws = true ∧ ∀ u ∈ ws,
        rectsIntersect u.x u.y u.w u.h v.x v.y v.w v.h = false := by
  rw [pairwiseFree_iff, pairwiseFree_iff, List.pairwise_append]
  simp only [List.pairwise_cons, List.mem_singleton]
  constructor
  · intro ⟨h1, _, h3⟩
    exact ⟨h1, fun u hu => h3 u hu v rfl⟩
  · intro ⟨h1, h2⟩
    refine ⟨h1, by simp, ?_⟩
    intro a ha b hb
    subst hb
    exact h2 a ha

theorem addWidget_auto_record (s : AppState) (p : WidgetPartial)
    (hf : (jsFalsyInt p.x && jsFalsyInt p.y) = true) :
    (addWidget s p).1.widgets = s.widgets ++ [(addWidget s p).2] ∧
    ((addWidget s p).2.x, (addWidget s p).2.y) =
      findEmptyPosition s.widgets s.grid.cols (jsOrInt p.w 3) (jsOrInt p.h 2) ∧
    (addWidget s p).2.w = jsOrInt p.w 3 ∧
    (addWidget s p).2.h = jsOrInt p.h 2 := by
  simp [addWidget, hf]

theorem addWidget_auto_preserves (s : AppState) (p : WidgetPartial)
    (hval : opValidatedB s (GridOp.add p) = true)
    (hd : dimsPositive s.widgets = true)
    (hn : (s.widgets.map (fun wd => wd.id)).Nodup)
    (hp : pairwiseFree s.widgets = true) :
    dimsPositive (addWidget s p).1.widgets = true ∧
    ((addWidget s p).1.widgets.map (fun wd => wd.id)).Nodup ∧
    pairwiseFree (addWidget s p).1.widgets = true := by
  rw [opValidatedB] at hval
  simp only [Bool.and_eq_true, decide_eq_true_eq] at hval
  obtain ⟨⟨⟨⟨hid, hfx⟩, hfy⟩, hw1⟩, hh1⟩ := hval
  have hf : (jsFalsyInt p.x && jsFalsyInt p.y) = true := by
    rw [hfx, hfy]; rfl
  obtain ⟨hlist, hpos, hw, hh⟩ := addWidget_auto_record s p hf
  have hnocol := findEmptyPosition_no_collision s.widgets s.grid.cols
    (jsOrInt p.w 3) (jsOrInt p.h 2) hw1 hh1 hd
  refine ⟨?_, ?_, ?_⟩
  · rw [hlist, dimsPositive, List.all_append]
    rw [dimsPositive] at hd
    rw [hd]
    simp only [Bool.true_and, List.all_cons, List.all_nil, Bool.and_true]
    rw [hw, hh]
    simp only [Bool.and_eq_true, decide_eq_true_eq]
    exact ⟨hw1, hh1⟩
  · have := applySessionOp_nodup s (SessionOp.add p)
      (fun q hq => by injection hq with hq; rw [← hq]; exact Option.isNone_iff_eq_none.mp hid) hn
    exact this
  · rw [hlist, pairwiseFree_append]
    refine ⟨hp, ?_⟩
    intro u hu
    have h2 := hnocol u hu
    rw [rectsIntersect_comm] at h2
    have h3 : (addWidget s p).2.x = (findEmptyPosition s.widgets s.grid.cols
        (jsOrInt p.w 3) (jsOrInt p.h 2)).1 := by
      rw [← hpos]
    have h4 : (addWidget s p).2.y = (findEmptyPosition s.widgets s.grid.cols
        (jsOrInt p.w 3) (jsOrInt p.h 2)).2 := by
      rw [← hpos]
    rw [h3, h4, hw, hh]
    exact h2

theorem find?_split (p : Widget → Bool) :
    ∀ (ws : List Widget) (wd : Widget), ws.find? p = some wd →
      ∃ l1 l2, ws = l1 ++ wd :: l2 ∧ (∀ u ∈ l1, p u = false) ∧ p wd = true := by
  intro ws
  induction ws with
  | nil => intro wd h; simp at h
  | cons a rest ih =>
    intro wd h
    by_cases hp : p a = true
    · rw [List.find?_cons_of_pos _ hp] at h
      injection h with h
      subst h
      exact ⟨[], rest, rfl, by simp, hp⟩
    · have hpf : p a = false := by
        cases hb : p a
        · rfl
        · exact absurd hb hp
      rw [List.find?_cons_of_neg _ (by simp [hpf])] at h
      obtain ⟨l1, l2, he, hall, hwd⟩ := ih wd h
      refine ⟨a :: l1, l2, by rw [he]; rfl, ?_, hwd⟩
      intro u hu
      rcases List.mem_cons.mp hu with hu | hu
      · subst hu; exact hpf
      · exact hall u hu

theorem updateFirst_split (f : Widget → Widget) (p : Widget → Bool) :
    ∀ (l1 : List Widget) (wd : Widget) (l2 : List Widget),
      (∀ u ∈ l1, p u = false) → p wd = true →
      (updateFirst p f (l1 ++ wd :: l2)).1 = l1 ++ f wd :: l2 := by
  intro l1
  induction l1 with
  | nil =>
    intro wd l2 _ hwd
    simp [updateFirst, hwd]
  | cons a rest ih =>
    intro wd l2 hall hwd
    have hpa : p a = false := hall a (by simp)
    rw [List.cons_append, updateFirst]
    simp only [hpa, Bool.false_eq_true, if_false]
    rw [ih wd l2 (fun u hu => hall u (by simp [hu])) hwd, List.cons_append]

theorem pairwise_replace {R : Widget → Widget → Prop}
    (l1 : List Widget) (wd v : Widget) (l2 : List Widget)
    (hpw : List.Pairwise R (l1 ++ wd :: l2))
    (hsafe1 : ∀ u ∈ l1, R u v) (hsafe2 : ∀ u ∈ l2, R v u) :
    List.Pairwise R (l1 ++ v :: l2) := by
  rw [List.pairwise_append, List.pairwise_cons] at hpw ⊢
  obtain ⟨h1, ⟨h2, h3⟩, h4⟩ := hpw
  refine ⟨h1, ⟨hsafe2, h3⟩, ?_⟩
  intro a ha b hb
  rcases List.mem_cons.mp hb with hb | hb
  · subst hb; exact hsafe1 a ha
  · exact h4 a ha b (List.mem_cons.mpr (Or.inr hb))

theorem dragCommit_preserves (s : AppState) (widgetId : String) (gx gy : Int)
    (hval : opValidatedB s (GridOp.drag widgetId gx gy) = true)
    (hd : dimsPositive s.widgets = true)
    (hn : (s.widgets.map (fun wd => wd.id)).Nodup)
    (hp : pairwiseFree s.widgets = true) :
    dimsPositive (dragCommit s widgetId gx gy).widgets = true ∧
    ((dragCommit s widgetId gx gy).widgets.map (fun wd => wd.id)).Nodup ∧
    pairwiseFree (dragCommit s widgetId gx gy).widgets = true := by
  match hfind : s.widgets.find? (fun wd => wd.id == widgetId) with
  | none =>
    simp only [dragCommit, hfind]
    exact ⟨hd, hn, hp⟩
  | some wd =>
    simp only [dragCommit, hfind]
    split
    case isFalse => exact ⟨hd, hn, hp⟩
    case isTrue hne =>
      -- The committed list replaces the first record matching the id.
      obtain ⟨l1, l2, hsplit, hl1, hwd⟩ :=
        find?_split (fun u => u.id == widgetId) s.widgets wd hfind
      have hwid : wd.id = widgetId := by simpa using hwd
      have hlist : (moveWidget s widgetId
          (validatePosition s.widgets s.grid.cols gx gy wd.w wd.h widgetId).1
          (validatePosition s.widgets s.grid.cols gx gy wd.w wd.h widgetId).2).1.widgets =
          l1 ++ (applyUpdates { WidgetUpdates.empty with
            x := some (validatePosition s.widgets s.grid.cols gx gy wd.w wd.h widgetId).1,
            y := some (validatePosition s.widgets s.grid.cols gx gy wd.w wd.h widgetId).2 } wd) :: l2 := by
        show (updateFirst (fun u => u.id == widgetId) _ s.widgets).1 = _
        rw [hsplit]
        exact updateFirst_split _ _ l1 wd l2 hl1 hwd
      have hv : applyUpdates { WidgetUpdates.empty with
          x := some (validatePosition s.widgets s.grid.cols gx gy wd.w wd.h widgetId).1,
          y := some (validatePosition s.widgets s.grid.cols gx gy wd.w wd.h widgetId).2 } wd =
          { wd with
            x := (validatePosition s.widgets s.grid.cols gx gy wd.w wd.h widgetId).1,
            y := (validatePosition s.widgets s.grid.cols gx gy wd.w wd.h widgetId).2 } := by
        simp [applyUpdates, WidgetUpdates.empty]
      rw [hv] at hlist
      -- The validated position intersects no other widget.
      rw [opValidatedB, List.all_eq_true] at hval
      have hval2 := hval wd (by rw [hsplit]; simp)
      simp only [Bool.or_eq_true, Bool.not_eq_true', beq_eq_false_iff_ne] at hval2
      rcases hval2 with hval2 | hval2
      · exact absurd hwid hval2
      · rw [List.all_eq_true] at hval2
        have hsafe : ∀ u ∈ s.widgets, u.id ≠ widgetId →
            rectsIntersect
              (validatePosition s.widgets s.grid.cols gx gy wd.w wd.h widgetId).1
              (validatePosition s.widgets s.grid.cols gx gy wd.w wd.h widgetId).2
              wd.w wd.h u.x u.y u.w u.h = false := by
          intro u hu hune
          have humem : u ∈ s.widgets.filter (fun v => v.id != widgetId) := by
            rw [List.mem_filter]
            exact ⟨hu, by simpa using hune⟩
          have := hval2 u humem
          simpa using this
        -- Records of `l2` cannot carry the dragged id: ids are distinct.
        have hl2 : ∀ u ∈ l2, u.id ≠ widgetId := by
          intro u hu
          rw [hsplit] at hn
          simp only [List.map_append, List.map_cons] at hn
          have h2 := (List.nodup_append.mp hn).2.1
          rw [List.nodup_cons] at h2
          intro he
          exact h2.1 (by
            rw [hwid, ← he]
            exact List.mem_map.mpr ⟨u, hu, rfl⟩)
        have hl1ne : ∀ u ∈ l1, u.id ≠ widgetId := by
          intro u hu
          have := hl1 u hu
          simpa using this
        refine ⟨?_, ?_, ?_⟩
        · rw [hlist]
          rw [hsplit, dimsPositive, List.all_append, List.all_cons,
            Bool.and_eq_true, Bool.and_eq_true] at hd
          rw [dimsPositive, List.all_append, List.all_cons]
          rw [Bool.and_eq_true, Bool.and_eq_true]
          exact ⟨hd.1, hd.2.1, hd.2.2⟩
        · rw [hlist]
          rw [hsplit] at hn
          simpa using hn
        · rw [hlist, pairwiseFree_iff]
          rw [hsplit, pairwiseFree_iff] at hp
          refine pairwise_replace l1 wd _ l2 hp ?_ ?_
          · intro u hu
            have h2 := hsafe u (by rw [hsplit]; simp [hu]) (hl1ne u hu)
            rw [rectsIntersect_comm] at h2
            exact h2
          · intro u hu
            exact hsafe u (by rw [hsplit]; simp [hu]) (hl2 u hu)

/-- C1 (amended): starting from any state whose widgets conform to the data
model (positive sizes, distinct ids) and contain no overlap, any sequence
of validated commits — `addWidget` auto-placements and drag commits —
preserves the no-overlap invariant *provided* each drag's collision
validator finds a collision-free position within its 100-attempt budget.
The unamended claim fails exactly when that budget is exhausted: the
validator then returns a still-overlapping position and the drag commits
it (see the counterexample). -/
theorem validated_run_no_overlap :
    ∀ (ops : List GridOp) (s : AppState),
      dimsPositive s.widgets = true →
      (s.widgets.map (fun wd => wd.id)).Nodup →
      pairwiseFree s.widgets = true →
      validatedRunB s ops = true →
      pairwiseFree (runOps s ops).widgets = true := by
  intro ops
  induction ops with
  | nil =>
    intro s _ _ hp _
    simpa [runOps] using hp
  | cons op rest ih =>
    intro s hd hn hp hv
    rw [validatedRunB, Bool.and_eq_true] at hv
    obtain ⟨hv1, hv2⟩ := hv
    have hstep : dimsPositive (applyOp s op).widgets = true ∧
        ((applyOp s op).widgets.map (fun wd => wd.id)).Nodup ∧
        pairwiseFree (applyOp s op).widgets = true := by
      match op with
      | .add p => exact addWidget_auto_preserves s p hv1 hd hn hp
      | .drag widgetId gx gy => exact dragCommit_preserves s widgetId gx gy hv1 hd hn hp
    exact ih (applyOp s op) hstep.1 hstep.2.1 hstep.2.2 hv2

/-- C1 witness run: two auto-placed widgets and a clean drag commit keep
the list overlap-free. -/
theorem validated_run_no_overlap_witness :
    pairwiseFree (runOps emptyState benignOps).widgets = true :=
  validated_run_no_overlap benignOps emptyState (by decide) (by decide)
    (by decide) (by decide)

/-- C1 counterexample: a sequence that uses only the validated commit paths
of the claim — two `addWidget` auto-placements followed by one drag commit
routed through the collision validator — ends with two overlapping
committed records.  The 12×102 widget blocks 102 rows, so the validator
exhausts its 100-attempt budget while dragging the second widget to the
top and commits `(0, 100)`, inside the first widget's rectangle. -/
theorem validated_run_overlap_counterexample :
    (runOps emptyState budgetOps).widgets.map
      (fun wd => (wd.id, wd.x, wd.y, wd.w, wd.h)) =
      [("a-1", 0, 0, 12, 102), ("b-1", 0, 100, 12, 2)] ∧
    pairwiseFree (runOps emptyState budgetOps).widgets = false := by decide

/-!
## Export/import round trip (claim C9)
-/

/-- C9: for every application state whose widget ids are non-empty strings
(every reachable state: generated ids are `"<type>-<n>"`, and import
backfills empty ids), `importLayout (exportLayout s)` returns `true` and
reproduces the state exactly — the same widget list (ids, positions, sizes,
configs), grid, theme and settings — emitting `layout-imported` with the
prior state as backup. -/
theorem export_import_roundtrip :
    ∀ s : AppState, (∀ wd ∈ s.widgets, wd.id ≠ "") →
      importLayout s (exportLayout s) =
        (true, s, [StateEvent.layoutImported s]) := by
  intro s hid
  have hmap : (s.widgets.map widgetToPartial).map (backfillWidget s.widgets) =
      s.widgets := by
    rw [List.map_map]
    have h1 : ∀ wd ∈ s.widgets,
        (backfillWidget s.widgets ∘ widgetToPartial) wd = wd := by
      intro wd hwd
      have h2 := hid wd hwd
      simp [backfillWidget, widgetToPartial, Function.comp, h2]
    rw [List.map_congr_left h1]
    simp
  simp only [importLayout, exportLayout]
  rw [hmap]
  simp

/-- C9 witness: the round trip at a populated concrete state. -/
theorem export_import_roundtrip_witness :
    importLayout darkState (exportLayout darkState) =
      (true, darkState, [StateEvent.layoutImported darkState]) :=
  export_import_roundtrip darkState (by decide)

end Dashboard
